import Mathlib

/-!
Shallow embedding of a small browser game demo (a game-loop driver, a player
controller, chasing enemies, and a static ground plane) together with proofs
about its behaviour.

Numbers: the JavaScript source computes with IEEE doubles.  The embedding
idealises them as exact rationals (`ℚ`) in the purely arithmetic parts
(health, score, timers, the vertical physics integration, constructor
defaulting) and as real numbers (`ℝ`) in the geometric parts that take square
roots (vector length, normalisation, distances).
-/

namespace Engine

/-! ### `src/core/Game.js` — the world collection

`Game.entities` is a JS array of entity objects.  Entities are compared by
object identity; the embedding represents them by natural-number identifiers.

* `Game.add(entity)`  : `this.entities.push(entity)` — unconditional append
  (plus mesh attach and the `init` hook, which do not affect membership).
* `Game.remove(entity)`: `indexOf` then `splice(index, 1)` — removes the
  first occurrence by identity, silent no-op when absent.  This is exactly
  `List.erase`.
-/

/-- An operation on the world collection: `Game.add` or `Game.remove`. -/
inductive GOp where
  | add (e : ℕ)
  | rem (e : ℕ)
deriving DecidableEq

/-- One `Game.add` / `Game.remove` step on the entity list. -/
def gameStep (l : List ℕ) : GOp → List ℕ
  | .add e => l ++ [e]
  | .rem e => l.erase e

/-- Run a sequence of add/remove operations starting from the empty world. -/
def gameExec (ops : List GOp) : List ℕ :=
  ops.foldl gameStep []

/-- How many times `ops` adds the entity `e`. -/
def addCount (e : ℕ) : List GOp → ℕ
  | [] => 0
  | GOp.add f :: ops => (if f = e then 1 else 0) + addCount e ops
  | GOp.rem _ :: ops => addCount e ops

/-! ### `Game.animate` — the per-frame update pass

`this.entities.forEach(entity => { if (entity.update) entity.update(delta, this) })`

Per the ECMAScript semantics of `Array.prototype.forEach`, the length is read
once before the first callback, and each index `k` is visited only if the
array still has an element at `k` at that moment.  `Game.remove` splices the
backing array in place, so a removal performed inside a callback shifts later
elements down while the cursor keeps advancing.

The model records, for each entity, which entity (if any) its `update`
removes from the world this frame, and logs the order of update calls.
-/

/-- State of one `Game.animate` entity pass: the (mutable) entity array and
the log of entities whose `update` has been called, in call order. -/
structure PassState where
  entities : List ℕ
  updated : List ℕ
deriving DecidableEq

/-- Run one entity's `update`: log the call, then perform the removal (if
any) that this entity's update issues via `game.remove`. -/
def runEntityUpdate (beh : ℕ → Option ℕ) (s : PassState) (e : ℕ) : PassState :=
  let s1 : PassState := { s with updated := s.updated ++ [e] }
  match beh e with
  | none => s1
  | some r => { s1 with entities := s1.entities.erase r }

/-- The `forEach` cursor loop: `fuel` counts the iterations remaining out of
the length captured before the loop started; `k` is the current index.  An
index past the current (possibly shrunken) array is skipped, exactly as the
`HasProperty` check of `Array.prototype.forEach` skips deleted slots. -/
def forEachAux (beh : ℕ → Option ℕ) : ℕ → ℕ → PassState → PassState
  | 0, _, s => s
  | fuel + 1, k, s =>
    let s' :=
      if hk : k < s.entities.length then
        runEntityUpdate beh s (s.entities.get ⟨k, hk⟩)
      else s
    forEachAux beh fuel (k + 1) s'

/-- The entity-update pass of `Game.animate` over the current collection. -/
def updatePass (beh : ℕ → Option ℕ) (entities : List ℕ) : PassState :=
  forEachAux beh entities.length 0 { entities := entities, updated := [] }

/-- Frame behaviour in which entity `1` (the middle of a three-entity world)
removes itself from the world during its own `update` — as an enemy death
mid-pass would. -/
def middleRemovesItself : ℕ → Option ℕ :=
  fun n => if n = 1 then some 1 else none

/-! ### `src/components/Player.js` — scalar state and physics

Constructor defaulting uses the JS `||` operator, which replaces every falsy
value — for numbers, `0` (and `NaN`) — by the default, not only a missing
option.  An absent option is `none`; a supplied numeric option is `some x`.
-/

/-- JS `options.x || d`: the default `d` is used when the option is absent
or its value is falsy (numeric `0`). -/
def jsOr (v : Option ℚ) (d : ℚ) : ℚ :=
  match v with
  | none => d
  | some x => if x = 0 then d else x

/-- The numeric options recognised by the `Player` constructor. -/
structure PlayerOptions where
  speed : Option ℚ
  jumpForce : Option ℚ
  mouseSensitivity : Option ℚ
  health : Option ℚ
deriving DecidableEq

/-- Scalar state of a `Player`: the constructor-set fields plus the mutable
vertical-physics state (`mesh.position.y`, `velocity.y`, `onGround`). -/
structure PlayerJs where
  speed : ℚ
  jumpForce : ℚ
  mouseSensitivity : ℚ
  health : ℚ
  score : ℚ
  gravity : ℚ
  y : ℚ
  vy : ℚ
  onGround : Bool
deriving DecidableEq

/-- The `Player` constructor: `||`-defaulting of the options, `score = 0`,
`gravity = -20`, zero velocity, not grounded.  (The mesh y position is set
to `1` later by `init`; it starts at the mesh default `0`.) -/
def mkPlayer (o : PlayerOptions) : PlayerJs :=
  { speed := jsOr o.speed 5
    jumpForce := jsOr o.jumpForce 10
    mouseSensitivity := jsOr o.mouseSensitivity (1 / 500)
    health := jsOr o.health 100
    score := 0
    gravity := -20
    y := 0
    vy := 0
    onGround := false }

/-- A `Player` constructed with no options (all defaults). -/
def freshPlayer : PlayerJs :=
  mkPlayer { speed := none, jumpForce := none, mouseSensitivity := none, health := none }

/-- `Player.takeDamage(amount)`: `this.health -= amount`, then clamp at zero
when the result is nonpositive (the `die()` call on reaching zero only logs;
`updateUI` is an external sink). -/
def takeDamage (amount : ℚ) (p : PlayerJs) : PlayerJs :=
  if p.health - amount ≤ 0 then { p with health := 0 }
  else { p with health := p.health - amount }

/-- `Player.addScore(points)`: add to score (`updateUI` is external). -/
def addScore (points : ℚ) (p : PlayerJs) : PlayerJs :=
  { p with score := p.score + points }

/-- `Player.applyPhysics(delta)`: gravity into vertical velocity
(`velocity.y += gravity * delta`), then velocity into vertical position
(`position.y += velocity.y * delta`), then the ground clamp at `y = 1`
(snap to 1, zero the vertical velocity, set `onGround`). -/
def applyPhysics (dt : ℚ) (p : PlayerJs) : PlayerJs :=
  if p.y + (p.vy + p.gravity * dt) * dt ≤ 1 then
    { p with vy := 0, y := 1, onGround := true }
  else
    { p with vy := p.vy + p.gravity * dt, y := p.y + (p.vy + p.gravity * dt) * dt }

/-- A call on the player's public mutators. -/
inductive PlayerOp where
  | damage (a : ℚ)
  | score (pts : ℚ)
deriving DecidableEq

/-- Apply one mutator call. -/
def runPlayerOp (p : PlayerJs) : PlayerOp → PlayerJs
  | .damage a => takeDamage a p
  | .score pts => addScore pts p

/-- Apply a sequence of mutator calls. -/
def runPlayerOps (p : PlayerJs) (ops : List PlayerOp) : PlayerJs :=
  ops.foldl runPlayerOp p

/-- A mutator call whose damage amount (if it is one) is nonnegative. -/
def opNonnegDamage : PlayerOp → Prop
  | .damage a => 0 ≤ a
  | .score _ => True

instance (op : PlayerOp) : Decidable (opNonnegDamage op) :=
  match op with
  | .damage a => inferInstanceAs (Decidable (0 ≤ a))
  | .score _ => inferInstanceAs (Decidable True)

/-! ### Constructor defaulting for `Enemy` and `Ground` (scalar options) -/

/-- The numeric options recognised by the `Enemy` constructor (`target` and
`position` are object-valued and handled separately). -/
structure EnemyOptions where
  speed : Option ℚ
  damage : Option ℚ
  attackRange : Option ℚ
  attackCooldown : Option ℚ
deriving DecidableEq

/-- The scalar fields the `Enemy` constructor initialises. -/
structure EnemyInit where
  speed : ℚ
  damage : ℚ
  attackRange : ℚ
  attackCooldown : ℚ
  timeSinceAttack : ℚ
  alive : Bool
deriving DecidableEq

/-- The `Enemy` constructor on its numeric options. -/
def mkEnemy (o : EnemyOptions) : EnemyInit :=
  { speed := jsOr o.speed 2
    damage := jsOr o.damage 10
    attackRange := jsOr o.attackRange 2
    attackCooldown := jsOr o.attackCooldown 1
    timeSinceAttack := 0
    alive := true }

/-- The numeric options recognised by the `Ground` constructor. -/
structure GroundOptions where
  size : Option ℚ
  color : Option ℚ
deriving DecidableEq

/-- The scalar values the `Ground` constructor computes. -/
structure GroundInit where
  size : ℚ
  color : ℚ
deriving DecidableEq

/-- The `Ground` constructor on its numeric options (`0x2ecc71 = 3066993`). -/
def mkGround (o : GroundOptions) : GroundInit :=
  { size := jsOr o.size 100
    color := jsOr o.color 3066993 }

/-! ### `src/components/Enemy.js` — runtime behaviour

Positions are 3D vectors over `ℝ` (idealised doubles); distances are genuine
Euclidean distances (`THREE.Vector3.length` / `distanceTo`).

The enemy's `target` is an arbitrary object reference; the only target ever
assigned in this repository is the `Player`.  The model keeps the duck-typed
capability checks of the source (`target.mesh`, `target.takeDamage`,
`target.addScore`) as Boolean capability flags, and — when the damage
capability is present — applies the `Player.takeDamage` semantics
(subtract then clamp at zero) to the target's health.
-/

/-- A `THREE.Vector3`, idealised over the reals. -/
structure Vec3 where
  x : ℝ
  y : ℝ
  z : ℝ

/-- The state of the object an enemy targets (the `Player` in this game):
its capability surface as seen by the enemy's duck-typed checks, and the
scalar state the enemy can mutate through it. -/
structure TargetState where
  hasMesh : Bool
  pos : Vec3
  canTakeDamage : Bool
  canAddScore : Bool
  health : ℝ
  score : ℝ

/-- Runtime state of an `Enemy`. -/
structure EnemyState where
  speed : ℝ
  damage : ℝ
  attackRange : ℝ
  attackCooldown : ℝ
  timeSinceAttack : ℝ
  pos : Vec3
  alive : Bool

/-- Ghost observations of one enemy update: whether the `tryAttack` guard
fired the attack, whether damage was actually applied to the target, and
whether the transient red flash was started. -/
structure AttackEvents where
  attackFired : Bool
  damageApplied : Bool
  flashStarted : Bool

/-- No attack activity. -/
def noEvents : AttackEvents := ⟨false, false, false⟩

/-- `mesh.position.distanceTo(other)`: Euclidean distance in 3D. -/
noncomputable def dist3 (p q : Vec3) : ℝ :=
  Real.sqrt ((q.x - p.x) ^ 2 + (q.y - p.y) ^ 2 + (q.z - p.z) ^ 2)

open Classical in
/-- `Enemy.chaseTarget(delta)`: planar direction to the target (`y` zeroed),
move toward it at `speed` when the planar distance exceeds `attackRange`.
(`lookAt` only changes the mesh orientation, which no claim observes, and is
not modelled.  `THREE.Vector3.normalize` divides by `length || 1`, so a
zero-length direction moves nothing; the same holds here since `x / 0 = 0`.) -/
noncomputable def chaseTarget (delta : ℝ) (e : EnemyState) (tpos : Vec3) : EnemyState :=
  if e.attackRange < Real.sqrt ((tpos.x - e.pos.x) ^ 2 + (tpos.z - e.pos.z) ^ 2) then
    { e with pos := { e.pos with
        x := e.pos.x + (tpos.x - e.pos.x) /
          Real.sqrt ((tpos.x - e.pos.x) ^ 2 + (tpos.z - e.pos.z) ^ 2) * e.speed * delta
        z := e.pos.z + (tpos.z - e.pos.z) /
          Real.sqrt ((tpos.x - e.pos.x) ^ 2 + (tpos.z - e.pos.z) ^ 2) * e.speed * delta } }
  else e

open Classical in
/-- `Enemy.attack()`: guarded by the `target.takeDamage` capability; applies
the target's `takeDamage` (the `Player`'s: subtract then clamp at zero) and
starts the transient red flash.  Returns the updated target and the ghost
event flags (`attackFired` is set by the caller `tryAttack`). -/
noncomputable def attack (e : EnemyState) (tgt : TargetState) : TargetState × AttackEvents :=
  if tgt.canTakeDamage = true then
    ({ tgt with health := max 0 (tgt.health - e.damage) },
     { attackFired := false, damageApplied := true, flashStarted := true })
  else (tgt, noEvents)

open Classical in
/-- `Enemy.tryAttack()`: re-check the target and its mesh, measure the 3D
distance, and when in range with the cooldown elapsed run `attack()` and
reset `timeSinceAttack` to zero. -/
noncomputable def tryAttack (e : EnemyState) (tgt : TargetState) :
    EnemyState × TargetState × AttackEvents :=
  if tgt.hasMesh = true then
    if dist3 e.pos tgt.pos ≤ e.attackRange ∧ e.attackCooldown ≤ e.timeSinceAttack then
      ({ e with timeSinceAttack := 0 },
       (attack e tgt).1,
       { (attack e tgt).2 with attackFired := true })
    else (e, tgt, noEvents)
  else (e, tgt, noEvents)

/-- `Enemy.wander(delta)`: sinusoidal drift driven by wall-clock time
(`Date.now()`, written `now` here, in milliseconds). -/
noncomputable def wander (delta now : ℝ) (e : EnemyState) : EnemyState :=
  { e with pos := { e.pos with
      x := e.pos.x + Real.sin (now * (1 / 1000)) * e.speed * delta * (1 / 2)
      z := e.pos.z + Real.cos (now * (1 / 1000)) * e.speed * delta * (1 / 2) } }

/-- The bounce animation at the end of `Enemy.update`:
`position.y = 0.5 + sin(Date.now() * 0.005) * 0.2`. -/
noncomputable def setBounce (now : ℝ) (e : EnemyState) : EnemyState :=
  { e with pos := { e.pos with y := 1 / 2 + Real.sin (now * (5 / 1000)) * (1 / 5) } }

open Classical in
/-- The branch of `Enemy.update` after the timer accumulation: chase and try
to attack when a target with a mesh is assigned, otherwise wander. -/
noncomputable def enemyUpdateCore (delta now : ℝ) (e : EnemyState)
    (target : Option TargetState) : EnemyState × Option TargetState × AttackEvents :=
  match target with
  | some tgt =>
    if tgt.hasMesh = true then
      ((tryAttack (chaseTarget delta e tgt.pos) tgt).1,
       some (tryAttack (chaseTarget delta e tgt.pos) tgt).2.1,
       (tryAttack (chaseTarget delta e tgt.pos) tgt).2.2)
    else (wander delta now e, some tgt, noEvents)
  | none => (wander delta now e, none, noEvents)

open Classical in
/-- `Enemy.update(delta, game)`: dead enemies do nothing; otherwise
accumulate the attack timer, chase/attack or wander, then apply the bounce
animation.  Returns the new enemy state, the (possibly damaged) target, and
the ghost attack events. -/
noncomputable def enemyUpdate (delta now : ℝ) (e : EnemyState)
    (target : Option TargetState) : EnemyState × Option TargetState × AttackEvents :=
  if e.alive = true then
    (setBounce now
       (enemyUpdateCore delta now { e with timeSinceAttack := e.timeSinceAttack + delta } target).1,
     (enemyUpdateCore delta now { e with timeSinceAttack := e.timeSinceAttack + delta } target).2.1,
     (enemyUpdateCore delta now { e with timeSinceAttack := e.timeSinceAttack + delta } target).2.2)
  else (e, target, noEvents)

/-- `Enemy.die()`: set `alive` to `false`, award 10 points to the target when
it exposes `addScore`, and — when the driver reference is present — ask the
driver to remove this enemy.  The third component counts the removal
requests issued to the driver (`game.remove(this)` calls). -/
def enemyDie (e : EnemyState) (hasGame : Bool) (target : Option TargetState) :
    EnemyState × Option TargetState × ℕ :=
  ({ e with alive := false },
   (match target with
    | some tgt =>
      some (if tgt.canAddScore then { tgt with score := tgt.score + 10 } else tgt)
    | none => none),
   if hasGame then 1 else 0)

/-- `Enemy.takeDamage(amount)`: logs the amount and unconditionally calls
`die()` — one-hit death, no alive-guard, amount ignored. -/
def enemyTakeDamage (_amount : ℝ) (e : EnemyState) (hasGame : Bool)
    (target : Option TargetState) : EnemyState × Option TargetState × ℕ :=
  enemyDie e hasGame target

/-- A sequence of `Enemy.takeDamage` calls, threading the enemy and target
state and accumulating the number of removal requests issued. -/
def takeDamageCalls (hasGame : Bool) :
    List ℝ → EnemyState → Option TargetState → ℕ → EnemyState × Option TargetState × ℕ
  | [], e, t, n => (e, t, n)
  | a :: rest, e, t, n =>
    takeDamageCalls hasGame rest (enemyTakeDamage a e hasGame t).1
      (enemyTakeDamage a e hasGame t).2.1 (n + (enemyTakeDamage a e hasGame t).2.2)

/-! ### `Player.handleInput` — the WASD movement direction

`direction.z -= 1` for W, `+= 1` for S; `direction.x -= 1` for A, `+= 1` for
D.  When the resulting vector has positive length it is normalised, rotated
into the yaw frame (`applyAxisAngle` about the y axis), and only then scaled
by `speed * delta`.  The claim concerns the vector before that scaling. -/

/-- The x component contributed by the A/D keys. -/
def keyDirX (a d : Bool) : ℝ :=
  (if a then -1 else 0) + (if d then 1 else 0)

/-- The z component contributed by the W/S keys. -/
def keyDirZ (w s : Bool) : ℝ :=
  (if w then -1 else 0) + (if s then 1 else 0)

/-- `THREE.Vector3.length` of a horizontal vector (its `y` is zero). -/
noncomputable def normThree (x z : ℝ) : ℝ :=
  Real.sqrt (x ^ 2 + z ^ 2)

/-- `applyAxisAngle((0,1,0), θ)`: rotation of a horizontal vector about the
vertical axis by `θ`. -/
noncomputable def rotY (θ x z : ℝ) : ℝ × ℝ :=
  (x * Real.cos θ + z * Real.sin θ, -x * Real.sin θ + z * Real.cos θ)

open Classical in
/-- The movement direction vector `handleInput` produces from the pressed
WASD keys, just before it is scaled by `speed * delta`: normalised and
rotated into the yaw frame when its length is positive, untouched (zero)
otherwise. -/
noncomputable def moveDirection (w s a d : Bool) (yaw : ℝ) : ℝ × ℝ :=
  if 0 < normThree (keyDirX a d) (keyDirZ w s) then
    rotY yaw (keyDirX a d / normThree (keyDirX a d) (keyDirZ w s))
      (keyDirZ w s / normThree (keyDirX a d) (keyDirZ w s))
  else (keyDirX a d, keyDirZ w s)

/-! ### Concrete states used by the evaluation and witness theorems -/

/-- A live enemy sitting on the target: speed 1, damage 1, range 2,
cooldown 1, 5 seconds since the last attack, at the origin. -/
noncomputable def enemyNear : EnemyState :=
  { speed := 1, damage := 1, attackRange := 2, attackCooldown := 1
    timeSinceAttack := 5, pos := ⟨0, 0, 0⟩, alive := true }

/-- A full-capability target (a `Player`) at the origin. -/
noncomputable def targetFull : TargetState :=
  { hasMesh := true, pos := ⟨0, 0, 0⟩, canTakeDamage := true
    canAddScore := true, health := 100, score := 0 }

/-- A target with a mesh but no `takeDamage` capability. -/
noncomputable def targetNoDamage : TargetState :=
  { hasMesh := true, pos := ⟨0, 0, 0⟩, canTakeDamage := false
    canAddScore := false, health := 100, score := 0 }

/-! ## Theorems -/

/-- Auxiliary: along any operation sequence, the occurrence count of an
entity is bounded by its starting count plus the number of times it is
added. -/
theorem count_foldl_le (e : ℕ) (ops : List GOp) :
    ∀ l : List ℕ, (ops.foldl gameStep l).count e ≤ l.count e + addCount e ops := by
  induction ops with
  | nil => intro l; simp [addCount]
  | cons op ops ih =>
    intro l
    cases op with
    | add f =>
      have h := ih (l ++ [f])
      have hc : (l ++ [f]).count e = l.count e + (if f = e then 1 else 0) := by
        by_cases hfe : f = e <;> simp [hfe, List.count_append, List.count_singleton']
      simp only [List.foldl_cons, gameStep, addCount] at h ⊢
      rw [hc] at h
      by_cases hfe : f = e
      · simp only [if_pos hfe] at h ⊢
        omega
      · simp only [if_neg hfe] at h ⊢
        omega
    | rem f =>
      have h := ih (l.erase f)
      have hc : (l.erase f).count e ≤ l.count e := (List.erase_sublist f l).count_le e
      simp only [List.foldl_cons, gameStep, addCount] at h ⊢
      omega

/-- C1: in `Game.animate`'s `forEach` update pass over a three-entity world,
when the middle entity's `update` removes that same entity via
`Game.remove`, the `splice` shifts the last entity onto an index the cursor
has already passed: the last entity receives no update call that frame, so
the two surviving entities do NOT both receive exactly one update.  This
evaluates the embedded pass at that failing input. -/
theorem update_pass_skips_after_self_removal :
    (updatePass middleRemovesItself [0, 1, 2]).entities = [0, 2] ∧
    (updatePass middleRemovesItself [0, 1, 2]).updated = [0, 1] ∧
    (updatePass middleRemovesItself [0, 1, 2]).updated.count 0 = 1 ∧
    (updatePass middleRemovesItself [0, 1, 2]).updated.count 2 = 0 := by
  decide

/-- C2 counterexample: `Game.add` pushes unconditionally, so adding the same
entity twice yields two occurrences — the membership invariant fails as
stated. -/
theorem add_twice_duplicates :
    gameExec [GOp.add 7, GOp.add 7] = [7, 7] ∧
    ¬ (gameExec [GOp.add 7, GOp.add 7]).count 7 ≤ 1 := by
  decide

/-- C2 (amended): for every sequence of add and remove operations that adds
any given entity at most once, that entity appears in the world collection
at most once. -/
theorem membership_at_most_once_of_unique_adds (ops : List GOp) (e : ℕ)
    (h : addCount e ops ≤ 1) : (gameExec ops).count e ≤ 1 := by
  have hb := count_foldl_le e ops []
  simp only [gameExec] at hb ⊢
  simp only [List.count_nil] at hb
  omega

/-- Witness for the amended C2 theorem at a concrete operation sequence. -/
theorem membership_at_most_once_of_unique_adds_witness :
    addCount 3 [GOp.add 3, GOp.add 4, GOp.rem 3] ≤ 1 ∧
    (gameExec [GOp.add 3, GOp.add 4, GOp.rem 3]).count 3 ≤ 1 :=
  ⟨by decide, membership_at_most_once_of_unique_adds _ 3 (by decide)⟩

/-- Auxiliary: both health bounds are preserved by any sequence of
`takeDamage` calls with nonnegative amounts and `addScore` calls. -/
theorem runPlayerOps_health_bounds (ops : List PlayerOp) :
    ∀ p : PlayerJs, 0 ≤ p.health → p.health ≤ 100 →
      (∀ op ∈ ops, opNonnegDamage op) →
      0 ≤ (runPlayerOps p ops).health ∧ (runPlayerOps p ops).health ≤ 100 := by
  induction ops with
  | nil =>
    intro p h0 h100 _
    simpa [runPlayerOps] using And.intro h0 h100
  | cons op ops ih =>
    intro p h0 h100 hops
    have hop := hops op (List.mem_cons_self op ops)
    have hrest : ∀ o ∈ ops, opNonnegDamage o := fun o ho => hops o (List.mem_cons_of_mem _ ho)
    cases op with
    | damage a =>
      have ha : 0 ≤ a := hop
      have h1 : 0 ≤ (takeDamage a p).health ∧ (takeDamage a p).health ≤ 100 := by
        unfold takeDamage
        by_cases hle : p.health - a ≤ 0
        · simp [hle]
        · simp only [if_neg hle]
          constructor <;> simp <;> linarith
      simpa [runPlayerOps, runPlayerOp] using ih (takeDamage a p) h1.1 h1.2 hrest
    | score pts =>
      have hh : (addScore pts p).health = p.health := rfl
      simpa [runPlayerOps, runPlayerOp] using
        ih (addScore pts p) (hh ▸ h0) (hh ▸ h100) hrest

/-- C3 counterexample: `Player.takeDamage` has no upper clamp, so a negative
damage amount (a legal numeric argument) pushes health above 100: a fresh
default player after `takeDamage(-50)` reads health 150. -/
theorem health_exceeds_cap_on_negative_damage :
    (runPlayerOps freshPlayer [PlayerOp.damage (-50)]).health = 150 ∧
    ¬ (runPlayerOps freshPlayer [PlayerOp.damage (-50)]).health ≤ 100 := by
  norm_num [runPlayerOps, runPlayerOp, takeDamage, freshPlayer, mkPlayer, jsOr]

/-- C3 (amended): starting from a freshly constructed default `Player`,
after any sequence of `takeDamage` calls with nonnegative amounts and
`addScore` calls with arbitrary amounts, health lies in `[0, 100]`. -/
theorem health_in_range_of_nonneg_damage (ops : List PlayerOp)
    (h : ∀ op ∈ ops, opNonnegDamage op) :
    0 ≤ (runPlayerOps freshPlayer ops).health ∧
    (runPlayerOps freshPlayer ops).health ≤ 100 :=
  runPlayerOps_health_bounds ops freshPlayer
    (by norm_num [freshPlayer, mkPlayer, jsOr]) (by norm_num [freshPlayer, mkPlayer, jsOr]) h

/-- Witness for the amended C3 theorem at a concrete call sequence. -/
theorem health_in_range_of_nonneg_damage_witness :
    (∀ op ∈ [PlayerOp.damage 30, PlayerOp.score 5, PlayerOp.damage 200], opNonnegDamage op) ∧
    (0 ≤ (runPlayerOps freshPlayer
        [PlayerOp.damage 30, PlayerOp.score 5, PlayerOp.damage 200]).health ∧
      (runPlayerOps freshPlayer
        [PlayerOp.damage 30, PlayerOp.score 5, PlayerOp.damage 200]).health ≤ 100) :=
  ⟨by norm_num [List.forall_mem_cons, opNonnegDamage],
   health_in_range_of_nonneg_damage _ (by norm_num [List.forall_mem_cons, opNonnegDamage])⟩

/-- C4: `Player.takeDamage(a)` leaves health equal to
`max 0 (previousHealth - a)`, hence never negative; in particular a default
player (health 100) after `takeDamage(150)` reads 0, not −50. -/
theorem takeDamage_max_clamp :
    (∀ (p : PlayerJs) (a : ℚ),
      (takeDamage a p).health = max 0 (p.health - a) ∧ 0 ≤ (takeDamage a p).health) ∧
    (takeDamage 150 freshPlayer).health = 0 := by
  constructor
  · intro p a
    unfold takeDamage
    by_cases hle : p.health - a ≤ 0
    · simp only [if_pos hle]
      exact ⟨(max_eq_left hle).symm, le_refl 0⟩
    · push_neg at hle
      simp only [if_neg (not_le.mpr hle)]
      exact ⟨(max_eq_right hle.le).symm, hle.le⟩
  · norm_num [takeDamage, freshPlayer, mkPlayer, jsOr]

/-- C7: for every starting state and every `dt ≥ 0`, after
`Player.applyPhysics` the vertical position is at least the ground height 1,
and whenever the clamp branch is taken (integrated position at most 1) the
vertical velocity is zeroed and the grounded flag is set. -/
theorem applyPhysics_never_below_ground (p : PlayerJs) (dt : ℚ) (hdt : 0 ≤ dt) :
    1 ≤ (applyPhysics dt p).y ∧
      (p.y + (p.vy + p.gravity * dt) * dt ≤ 1 →
        (applyPhysics dt p).vy = 0 ∧ (applyPhysics dt p).onGround = true) := by
  unfold applyPhysics
  by_cases h : p.y + (p.vy + p.gravity * dt) * dt ≤ 1
  · simp [h]
  · refine ⟨?_, fun hc => absurd hc h⟩
    simp only [if_neg h]
    push_neg at h
    linarith

/-- Witness for C7 at a concrete state and time step (the fresh player at
`y = 0` falls and is clamped back to the ground after one 1-second step). -/
theorem applyPhysics_never_below_ground_witness :
    (0 : ℚ) ≤ 1 ∧ 1 ≤ (applyPhysics 1 freshPlayer).y ∧
      ((applyPhysics 1 freshPlayer).vy = 0 ∧ (applyPhysics 1 freshPlayer).onGround = true) :=
  ⟨by norm_num,
   (applyPhysics_never_below_ground freshPlayer 1 (by norm_num)).1,
   (applyPhysics_never_below_ground freshPlayer 1 (by norm_num)).2
     (by norm_num [freshPlayer, mkPlayer, jsOr])⟩

/-- C9: constructor options are defaulted on any falsy value, not only when
omitted: a `Player` built with health 0 gets 100, an `Enemy` with speed 0
gets 2 and with damage 0 gets 10, and a `Ground` with size 0 gets 100. -/
theorem falsy_options_defaulted :
    (mkPlayer { speed := none, jumpForce := none, mouseSensitivity := none,
                health := some 0 }).health = 100 ∧
    (mkEnemy { speed := some 0, damage := none, attackRange := none,
               attackCooldown := none }).speed = 2 ∧
    (mkEnemy { speed := none, damage := some 0, attackRange := none,
               attackCooldown := none }).damage = 10 ∧
    (mkGround { size := some 0, color := none }).size = 100 := by
  norm_num [mkPlayer, mkEnemy, mkGround, jsOr]

/-- Auxiliary: `chaseTarget` only moves the enemy; the attack timer is
unchanged. -/
theorem chaseTarget_timeSinceAttack (delta : ℝ) (e : EnemyState) (tpos : Vec3) :
    (chaseTarget delta e tpos).timeSinceAttack = e.timeSinceAttack := by
  unfold chaseTarget
  split <;> rfl

/-- Auxiliary: `chaseTarget` leaves the attack range unchanged. -/
theorem chaseTarget_attackRange (delta : ℝ) (e : EnemyState) (tpos : Vec3) :
    (chaseTarget delta e tpos).attackRange = e.attackRange := by
  unfold chaseTarget
  split <;> rfl

/-- Auxiliary: `chaseTarget` leaves the attack cooldown unchanged. -/
theorem chaseTarget_attackCooldown (delta : ℝ) (e : EnemyState) (tpos : Vec3) :
    (chaseTarget delta e tpos).attackCooldown = e.attackCooldown := by
  unfold chaseTarget
  split <;> rfl

/-- Auxiliary: the bounce animation does not touch the attack timer. -/
theorem setBounce_timeSinceAttack (now : ℝ) (e : EnemyState) :
    (setBounce now e).timeSinceAttack = e.timeSinceAttack := rfl

/-- Auxiliary: `tryAttack` fires exactly when the 3D distance is within
range and the accumulated timer has reached the cooldown, and firing resets
the timer. -/
theorem tryAttack_fired_iff (e : EnemyState) (tgt : TargetState)
    (hmesh : tgt.hasMesh = true) :
    ((tryAttack e tgt).2.2.attackFired = true ↔
      (dist3 e.pos tgt.pos ≤ e.attackRange ∧ e.attackCooldown ≤ e.timeSinceAttack)) ∧
    ((tryAttack e tgt).2.2.attackFired = true → (tryAttack e tgt).1.timeSinceAttack = 0) := by
  unfold tryAttack
  rw [if_pos hmesh]
  by_cases hC : dist3 e.pos tgt.pos ≤ e.attackRange ∧ e.attackCooldown ≤ e.timeSinceAttack
  · rw [if_pos hC]
    exact ⟨iff_of_true rfl hC, fun _ => rfl⟩
  · rw [if_neg hC]
    exact ⟨iff_of_false (by simp [noEvents]) hC, fun hf => absurd hf (by simp [noEvents])⟩

/-- C5: during an `Enemy.update` with a live enemy and an assigned target
that has a mesh, the attack fires if and only if the distance from the
(post-chase-movement) enemy position to the target is at most `attackRange`
and the accumulated time since the last attack is at least `attackCooldown`;
when it fires, the timer is reset to zero. -/
theorem enemy_attack_fires_iff (delta now : ℝ) (e : EnemyState) (tgt : TargetState)
    (halive : e.alive = true) (hmesh : tgt.hasMesh = true) :
    ((enemyUpdate delta now e (some tgt)).2.2.attackFired = true ↔
      (dist3 (chaseTarget delta { e with timeSinceAttack := e.timeSinceAttack + delta }
          tgt.pos).pos tgt.pos ≤ e.attackRange ∧
        e.attackCooldown ≤ e.timeSinceAttack + delta)) ∧
    ((enemyUpdate delta now e (some tgt)).2.2.attackFired = true →
      (enemyUpdate delta now e (some tgt)).1.timeSinceAttack = 0) := by
  have h1 : (enemyUpdate delta now e (some tgt)).1 =
      setBounce now (tryAttack (chaseTarget delta
        { e with timeSinceAttack := e.timeSinceAttack + delta } tgt.pos) tgt).1 := by
    simp [enemyUpdate, halive, enemyUpdateCore, hmesh]
  have h2 : (enemyUpdate delta now e (some tgt)).2.2 =
      (tryAttack (chaseTarget delta
        { e with timeSinceAttack := e.timeSinceAttack + delta } tgt.pos) tgt).2.2 := by
    simp [enemyUpdate, halive, enemyUpdateCore, hmesh]
  have hta := tryAttack_fired_iff
    (chaseTarget delta { e with timeSinceAttack := e.timeSinceAttack + delta } tgt.pos) tgt hmesh
  rw [chaseTarget_attackRange, chaseTarget_attackCooldown, chaseTarget_timeSinceAttack] at hta
  constructor
  · rw [h2]
    exact hta.1
  · intro hf
    rw [h1, setBounce_timeSinceAttack]
    refine hta.2 ?_
    rw [h2] at hf
    exact hf

/-- Witness for C5: a live enemy on top of a full-capability target with an
elapsed cooldown fires, and its timer reads zero afterwards. -/
theorem enemy_attack_fires_iff_witness :
    enemyNear.alive = true ∧ targetFull.hasMesh = true ∧
    (enemyUpdate 0 0 enemyNear (some targetFull)).2.2.attackFired = true ∧
    (enemyUpdate 0 0 enemyNear (some targetFull)).1.timeSinceAttack = 0 := by
  have hchase : (chaseTarget 0 { enemyNear with
      timeSinceAttack := enemyNear.timeSinceAttack + 0 } targetFull.pos).pos = enemyNear.pos := by
    unfold chaseTarget
    rw [if_neg]
    norm_num [enemyNear, targetFull, Real.sqrt_zero]
  have hdist : dist3 (chaseTarget 0 { enemyNear with
      timeSinceAttack := enemyNear.timeSinceAttack + 0 } targetFull.pos).pos targetFull.pos
      ≤ enemyNear.attackRange := by
    rw [hchase]
    norm_num [dist3, enemyNear, targetFull, Real.sqrt_zero]
  have hcool : enemyNear.attackCooldown ≤ enemyNear.timeSinceAttack + 0 := by
    norm_num [enemyNear]
  have h := enemy_attack_fires_iff 0 0 enemyNear targetFull rfl rfl
  have hfired := h.1.mpr ⟨hdist, hcool⟩
  exact ⟨rfl, rfl, hfired, h.2 hfired⟩

/-- C10: when the target has a mesh but no `takeDamage` capability, an
in-range attack with elapsed cooldown still resets the timer to zero while
leaving the target unchanged: no damage is applied and no flash starts. -/
theorem attack_without_capability (delta now : ℝ) (e : EnemyState) (tgt : TargetState)
    (halive : e.alive = true) (hmesh : tgt.hasMesh = true)
    (hnocap : tgt.canTakeDamage = false)
    (hdist : dist3 (chaseTarget delta { e with timeSinceAttack := e.timeSinceAttack + delta }
        tgt.pos).pos tgt.pos ≤ e.attackRange)
    (hcool : e.attackCooldown ≤ e.timeSinceAttack + delta) :
    (enemyUpdate delta now e (some tgt)).1.timeSinceAttack = 0 ∧
    (enemyUpdate delta now e (some tgt)).2.1 = some tgt ∧
    (enemyUpdate delta now e (some tgt)).2.2.damageApplied = false ∧
    (enemyUpdate delta now e (some tgt)).2.2.flashStarted = false := by
  have h1 : (enemyUpdate delta now e (some tgt)).1 =
      setBounce now (tryAttack (chaseTarget delta
        { e with timeSinceAttack := e.timeSinceAttack + delta } tgt.pos) tgt).1 := by
    simp [enemyUpdate, halive, enemyUpdateCore, hmesh]
  have h21 : (enemyUpdate delta now e (some tgt)).2.1 =
      some (tryAttack (chaseTarget delta
        { e with timeSinceAttack := e.timeSinceAttack + delta } tgt.pos) tgt).2.1 := by
    simp [enemyUpdate, halive, enemyUpdateCore, hmesh]
  have h22 : (enemyUpdate delta now e (some tgt)).2.2 =
      (tryAttack (chaseTarget delta
        { e with timeSinceAttack := e.timeSinceAttack + delta } tgt.pos) tgt).2.2 := by
    simp [enemyUpdate, halive, enemyUpdateCore, hmesh]
  have hC : dist3 (chaseTarget delta { e with timeSinceAttack := e.timeSinceAttack + delta }
        tgt.pos).pos tgt.pos ≤
        (chaseTarget delta { e with timeSinceAttack := e.timeSinceAttack + delta }
          tgt.pos).attackRange ∧
      (chaseTarget delta { e with timeSinceAttack := e.timeSinceAttack + delta }
          tgt.pos).attackCooldown ≤
        (chaseTarget delta { e with timeSinceAttack := e.timeSinceAttack + delta }
          tgt.pos).timeSinceAttack := by
    rw [chaseTarget_attackRange, chaseTarget_attackCooldown, chaseTarget_timeSinceAttack]
    exact ⟨hdist, hcool⟩
  have htry : tryAttack (chaseTarget delta
      { e with timeSinceAttack := e.timeSinceAttack + delta } tgt.pos) tgt =
      ({ chaseTarget delta { e with timeSinceAttack := e.timeSinceAttack + delta } tgt.pos with
          timeSinceAttack := 0 },
       (attack (chaseTarget delta { e with timeSinceAttack := e.timeSinceAttack + delta }
          tgt.pos) tgt).1,
       { (attack (chaseTarget delta { e with timeSinceAttack := e.timeSinceAttack + delta }
          tgt.pos) tgt).2 with attackFired := true }) := by
    unfold tryAttack
    rw [if_pos hmesh, if_pos hC]
  have hatk : attack (chaseTarget delta
      { e with timeSinceAttack := e.timeSinceAttack + delta } tgt.pos) tgt =
      (tgt, noEvents) := by
    unfold attack
    rw [if_neg]
    simp [hnocap]
  refine ⟨?_, ?_, ?_, ?_⟩
  · rw [h1, htry, setBounce_timeSinceAttack]
  · rw [h21, htry, hatk]
  · rw [h22, htry, hatk]
    rfl
  · rw [h22, htry, hatk]
    rfl

/-- Witness for C10: same in-range, cooldown-elapsed scenario against a
target without the damage capability. -/
theorem attack_without_capability_witness :
    enemyNear.alive = true ∧ targetNoDamage.hasMesh = true ∧
    targetNoDamage.canTakeDamage = false ∧
    (enemyUpdate 0 0 enemyNear (some targetNoDamage)).1.timeSinceAttack = 0 ∧
    (enemyUpdate 0 0 enemyNear (some targetNoDamage)).2.1 = some targetNoDamage ∧
    (enemyUpdate 0 0 enemyNear (some targetNoDamage)).2.2.damageApplied = false ∧
    (enemyUpdate 0 0 enemyNear (some targetNoDamage)).2.2.flashStarted = false := by
  have hchase : (chaseTarget 0 { enemyNear with
      timeSinceAttack := enemyNear.timeSinceAttack + 0 } targetNoDamage.pos).pos
      = enemyNear.pos := by
    unfold chaseTarget
    rw [if_neg]
    norm_num [enemyNear, targetNoDamage, Real.sqrt_zero]
  have hdist : dist3 (chaseTarget 0 { enemyNear with
      timeSinceAttack := enemyNear.timeSinceAttack + 0 } targetNoDamage.pos).pos targetNoDamage.pos
      ≤ enemyNear.attackRange := by
    rw [hchase]
    norm_num [dist3, enemyNear, targetNoDamage, Real.sqrt_zero]
  have hcool : enemyNear.attackCooldown ≤ enemyNear.timeSinceAttack + 0 := by
    norm_num [enemyNear]
  have h := attack_without_capability 0 0 enemyNear targetNoDamage rfl rfl rfl hdist hcool
  exact ⟨rfl, rfl, rfl, h.1, h.2.1, h.2.2.1, h.2.2.2⟩

/-- Auxiliary: each `takeDamage` call adds exactly one removal request when
the driver reference is present. -/
theorem takeDamageCalls_count (amounts : List ℝ) :
    ∀ (e : EnemyState) (t : Option TargetState) (n : ℕ),
      (takeDamageCalls true amounts e t n).2.2 = n + amounts.length := by
  induction amounts with
  | nil => intro e t n; simp [takeDamageCalls]
  | cons a rest ih =>
    intro e t n
    rw [takeDamageCalls, ih]
    simp [enemyTakeDamage, enemyDie]
    omega

/-- C6 counterexample: `Enemy.takeDamage` has no alive-guard, so two calls
on the same enemy issue two removal requests to the driver, not one. -/
theorem double_takeDamage_two_removal_requests :
    (takeDamageCalls true [3, 3] enemyNear none 0).2.2 = 2 ∧
    ¬ (takeDamageCalls true [3, 3] enemyNear none 0).2.2 = 1 := by
  have h : (takeDamageCalls true [3, 3] enemyNear none 0).2.2 = 2 := rfl
  exact ⟨h, by rw [h]; norm_num⟩

/-- C6 (amended): a single `Enemy.takeDamage` call, with any amount, sets
`alive` to `false` and issues exactly one removal request when the driver
reference is present; a sequence of calls issues one removal request per
call. -/
theorem takeDamage_kills_and_requests_removal (e : EnemyState) (t : Option TargetState)
    (a : ℝ) (amounts : List ℝ) (halive : e.alive = true) :
    (enemyTakeDamage a e true t).1.alive = false ∧
    (enemyTakeDamage a e true t).2.2 = 1 ∧
    (takeDamageCalls true amounts e t 0).2.2 = amounts.length := by
  refine ⟨rfl, rfl, ?_⟩
  simpa using takeDamageCalls_count amounts e t 0

/-- Witness for the amended C6 theorem on a live enemy with two calls. -/
theorem takeDamage_kills_and_requests_removal_witness :
    enemyNear.alive = true ∧
    (enemyTakeDamage 3 enemyNear true none).1.alive = false ∧
    (enemyTakeDamage 3 enemyNear true none).2.2 = 1 ∧
    (takeDamageCalls true [1, 2] enemyNear none 0).2.2 = ([1, 2] : List ℝ).length :=
  ⟨rfl, takeDamage_kills_and_requests_removal enemyNear none 3 [1, 2] rfl⟩

/-- C8: for every combination of pressed WASD keys (including none and
opposing pairs) and every yaw angle, the movement direction vector produced
by `handleInput` before the `speed * delta` scaling is either exactly the
zero vector or has unit length. -/
theorem moveDirection_zero_or_unit (w s a d : Bool) (yaw : ℝ) :
    moveDirection w s a d yaw = (0, 0) ∨
      normThree (moveDirection w s a d yaw).1 (moveDirection w s a d yaw).2 = 1 := by
  by_cases h : 0 < normThree (keyDirX a d) (keyDirZ w s)
  · right
    have hS : 0 < keyDirX a d ^ 2 + keyDirZ w s ^ 2 := by
      have h' := h
      unfold normThree at h'
      exact Real.sqrt_pos.mp h'
    have hL2 : normThree (keyDirX a d) (keyDirZ w s) ^ 2 =
        keyDirX a d ^ 2 + keyDirZ w s ^ 2 := Real.sq_sqrt (le_of_lt hS)
    have hLne : normThree (keyDirX a d) (keyDirZ w s) ≠ 0 := ne_of_gt h
    simp only [moveDirection, if_pos h, rotY]
    have expand : (keyDirX a d / normThree (keyDirX a d) (keyDirZ w s) * Real.cos yaw +
          keyDirZ w s / normThree (keyDirX a d) (keyDirZ w s) * Real.sin yaw) ^ 2 +
        (-(keyDirX a d / normThree (keyDirX a d) (keyDirZ w s)) * Real.sin yaw +
          keyDirZ w s / normThree (keyDirX a d) (keyDirZ w s) * Real.cos yaw) ^ 2
        = (keyDirX a d ^ 2 + keyDirZ w s ^ 2) * (Real.sin yaw ^ 2 + Real.cos yaw ^ 2) /
            normThree (keyDirX a d) (keyDirZ w s) ^ 2 := by
      ring
    show Real.sqrt _ = 1
    rw [expand, Real.sin_sq_add_cos_sq, mul_one, ← hL2,
      div_self (pow_ne_zero 2 hLne), Real.sqrt_one]
  · left
    have h0 : normThree (keyDirX a d) (keyDirZ w s) = 0 :=
      le_antisymm (not_lt.mp h) (Real.sqrt_nonneg _)
    have hS : keyDirX a d ^ 2 + keyDirZ w s ^ 2 ≤ 0 := by
      have := h0
      unfold normThree at this
      exact Real.sqrt_eq_zero'.mp this
    have hx0 : keyDirX a d = 0 := by nlinarith [sq_nonneg (keyDirX a d), sq_nonneg (keyDirZ w s)]
    have hz0 : keyDirZ w s = 0 := by nlinarith [sq_nonneg (keyDirX a d), sq_nonneg (keyDirZ w s)]
    have hmv : moveDirection w s a d yaw = (keyDirX a d, keyDirZ w s) := by
      unfold moveDirection
      rw [if_neg h]
    rw [hmv, hx0, hz0]

end Engine
